import Mathlib

/-!
Verification of the Inkscape "generator" extension (generator.py).

Shallow embedding: Python strings are modelled as lists of characters
(`Str`), Python dicts as association lists with overwrite-on-insert
(`Desc`), fallible code returns `Except GenError`.  Every definition is
translated from generator.py; the external pieces (file system, csv
module, lxml serialization, the rendering binary) are kept at the
boundary as parameters.
-/

/-- Python `str`, modelled as a list of characters. -/
abbrev Str := List Char

/-- A row descriptor: Python dict from variable name to value
(generator.py `get_line_desc`). -/
abbrev Desc := List (Str × Str)

/-- Python dict insertion: overwrite the binding in place if the key is
present, append otherwise. -/
def dinsert (m : Desc) (k v : Str) : Desc :=
  match m with
  | [] => [(k, v)]
  | (k', v') :: rest => if k' = k then (k, v) :: rest else (k', v') :: dinsert rest k v

/-- Python dict lookup (`name_dict[k]`, `KeyError` as `none`). -/
def dlookup (m : Desc) (k : Str) : Option Str :=
  match m with
  | [] => none
  | (k', v) :: rest => if k' = k then some v else dlookup rest k

/-- Python `dict(pairs)`: fold the pairs into a dict, later duplicate
keys overwriting earlier ones. -/
def dictOf (pairs : List (Str × Str)) : Desc :=
  pairs.foldl (fun m kv => dinsert m kv.1 kv.2) []

/-- generator.py line 171: `dict(zip(self.header, line))`. -/
def get_line_desc (header : List Str) (line : List Str) : Desc :=
  dictOf (header.zip line)

/-- generator.py line 131: the synthetic header of index mode,
`[str(i) for i in range(len(self.data[0]))]`. -/
def syntheticHeader (row0 : List Str) : List Str :=
  (List.range row0.length).map (fun i => (Nat.repr i).data)

/-- Python `str.lower` (ASCII case folding, which covers every string
the program compares against). -/
def pyLower (s : Str) : Str := s.map Char.toLower

/-- generator.py line 234, the condition of the `%IF_...%` branch:
`var and (var.lower() not in ('0', 'false', 'no'))`. -/
def is_true (v : Str) : Bool :=
  !v.isEmpty && !(["0".data, "false".data, "no".data].contains (pyLower v))

/-- generator.py line 253, the condition of the `%UNLESS_...%` keep
branch: `not(var) or (var.lower() in ('0', 'false', 'no'))`. -/
def unlessKeep (v : Str) : Bool :=
  v.isEmpty || (["0".data, "false".data, "no".data].contains (pyLower v))

/-- The error outcomes of generator.py.  The first four are raised and
reported through `errormsg`; `indexOutOfBounds` models the uncaught
Python `IndexError` from `self.data[0]` on an empty data list. -/
inductive GenError where
  | emptyDataSource
  | malformedRule (t : Str)
  | wrongColumnName (column : Str)
  | wrongColumnNumber (column : Str)
  | indexOutOfBounds
deriving DecidableEq

/-- Python `str.replace` scanning core.  The `Nat` argument counts
characters that still belong to an already-replaced occurrence of the
pattern and must be consumed without being emitted. -/
def replaceAllAux (pat rep : Str) : Nat → Str → Str
  | _, [] => []
  | k + 1, _ :: rest => replaceAllAux pat rep k rest
  | 0, c :: rest =>
    if pat.isPrefixOf (c :: rest) then
      rep ++ replaceAllAux pat rep (pat.length - 1) rest
    else c :: replaceAllAux pat rep 0 rest

/-- Python `str.replace` with an empty pattern inserts the replacement
before every character and once more at the end. -/
def emptyPatReplace (rep : Str) : Str → Str
  | [] => rep
  | c :: rest => rep ++ c :: emptyPatReplace rep rest

/-- Python `s.replace(pat, rep)`: replace every non-overlapping
occurrence of `pat`, scanning left to right. -/
def replaceAll (pat rep s : Str) : Str :=
  if pat.isEmpty then emptyPatReplace rep s else replaceAllAux pat rep 0 s

/-- Python `s.find(pat) >= 0`: `pat` occurs somewhere in `s`. -/
def occursIn (pat : Str) : Str → Bool
  | [] => pat.isEmpty
  | c :: rest => pat.isPrefixOf (c :: rest) || occursIn pat rest

/-- Python `s.split(sep)` core for a non-empty separator.  The `Nat`
argument counts characters still belonging to a matched separator. -/
def splitOnAux (sep : Str) : Nat → Str → List Str
  | _, [] => [[]]
  | k + 1, _ :: rest => splitOnAux sep k rest
  | 0, c :: rest =>
    if sep.isPrefixOf (c :: rest) then
      [] :: splitOnAux sep (sep.length - 1) rest
    else
      match splitOnAux sep 0 rest with
      | [] => [[c]]
      | p :: ps => (c :: p) :: ps

/-- Python `s.split(sep)` for the non-empty separators generator.py
uses ('|' between rules, '=>' inside a rule). -/
def splitOnSep (sep s : Str) : List Str :=
  if sep.isEmpty then [s] else splitOnAux sep 0 s

/-- xml.sax.saxutils.escape: replace the ampersand first, then the two
angle brackets.  Quote characters are not touched. -/
def escape (s : Str) : Str :=
  replaceAll "<".data "&lt;".data
    (replaceAll ">".data "&gt;".data
      (replaceAll "&".data "&amp;".data s))

/-- The token Stage B looks for: `'%VAR_' + k + '%'`. -/
def varPat (k : Str) : Str := "%VAR_".data ++ k ++ "%".data

/-- generator.py `expand_vars` (lines 205-211): skip lines without a
percent sign, otherwise replace every descriptor token by its escaped
value, one descriptor entry after the other on the evolving line. -/
def expand_vars (line : Str) (name_dict : Desc) : Str :=
  if line.contains '%' = false then line
  else name_dict.foldl (fun l kv => replaceAll (varPat kv.1) (escape kv.2) l) line

/-- One replacement rule of generator.py `expand_extra_vars`
(lines 182-202): split the rule on '=>' (a fatal error when that does
not give exactly two parts), skip when the literal does not occur,
otherwise look the column up (a fatal error on a miss, worded by
variable mode) and replace every occurrence by the escaped value. -/
def stepRule (var_type : Str) (name_dict : Desc) (line t : Str) :
    Except GenError Str :=
  match splitOnSep "=>".data t with
  | [old_txt, column] =>
    if occursIn old_txt line = false then .ok line
    else
      match dlookup name_dict column with
      | some v => .ok (replaceAll old_txt (escape v) line)
      | none =>
        if var_type = "name".data then .error (.wrongColumnName column)
        else .error (.wrongColumnNumber column)
  | _ => .error (.malformedRule t)

/-- generator.py `expand_extra_vars` (lines 177-203): the line is
returned unchanged when the option string is empty, otherwise the rules
separated by '|' are applied in order to the evolving line. -/
def expand_extra_vars (var_type : Str) (extra_vars : Str) (line : Str)
    (name_dict : Desc) : Except GenError Str :=
  if extra_vars = [] then .ok line
  else (splitOnSep "|".data extra_vars).foldlM (stepRule var_type name_dict) line

/-- generator.py `handle_csv` (lines 110-127), after the csv module has
parsed the file into `rows`: in name mode the first row becomes the
header (`StopIteration` on an empty file turns into the fatal
empty-data error); otherwise all rows are data. -/
def handle_csv (var_type : Str) (rows : List (List Str)) :
    Except GenError (Option (List Str) × List (List Str)) :=
  if var_type = "name".data then
    match rows with
    | [] => .error .emptyDataSource
    | h :: t => .ok (some h, t)
  else .ok (none, rows)

/-- generator.py `create_svg_name` (lines 134-138), restricted to the
row-descriptor part: each data row is described with the header. -/
def create_svg_name_descs (header : List Str) (data : List (List Str)) : List Desc :=
  data.map (get_line_desc header)

/-- generator.py `create_svg_number` (lines 129-132):
`self.header = [str(i) for i in range(len(self.data[0]))]` followed by
`create_svg_name`.  On an empty data list, `self.data[0]` raises an
uncaught `IndexError`. -/
def create_svg_number_descs (data : List (List Str)) : Except GenError (List Desc) :=
  match data with
  | [] => .error .indexOutOfBounds
  | row0 :: _ => .ok (create_svg_name_descs (syntheticHeader row0) data)

/-- generator.py `effect` (lines 97-108) up to the construction of the
per-row descriptors: `handle_csv`, then `create_svg_name` or
`create_svg_number` depending on `var_type`. -/
def prepare_descs (var_type : Str) (rows : List (List Str)) :
    Except GenError (List Desc) :=
  match handle_csv var_type rows with
  | .error e => .error e
  | .ok (hdr, data) =>
    if var_type = "name".data then
      match hdr with
      | some h => .ok (create_svg_name_descs h data)
      | none => .ok []
    else create_svg_number_descs data

/-- The `[^%]*%` part of the marker regexes: the characters before the
next percent sign, or no match when no percent sign follows. -/
def takeUntilPercent : Str → Option Str
  | [] => none
  | c :: r => if c = '%' then some [] else (takeUntilPercent r).map (c :: ·)

/-- A marker match starting at the front of `s`: `pre` followed by a
percent-free capture and a closing percent sign. -/
def matchTail (pre s : Str) : Option Str :=
  if pre.isPrefixOf s then takeUntilPercent (s.drop pre.length) else none

/-- Python `re.match('.*PRE([^%]*)%', label)` for the marker prefixes
of generator.py (lines 226 and 245): the greedy `.*` picks the
rightmost valid occurrence, and, because `.` does not match a newline
while `re.match` anchors at the start, a marker can only start before
the first newline of the label. -/
def matchMarker (pre : Str) : Str → Option Str
  | [] => matchTail pre []
  | c :: rest =>
    if c = '\n' then matchTail pre (c :: rest)
    else (matchMarker pre rest).orElse (fun _ => matchTail pre (c :: rest))

/-- Python `del g.attrib['style']` guarded by `'style' in g.attrib`
(generator.py lines 236-237 and 255-256). -/
def delStyle (attrs : List (Str × Str)) : List (Str × Str) :=
  attrs.eraseP (fun kv => kv.1 == "style".data)

/-- generator.py lines 244-261, the `%UNLESS_...%` block, entered with
the group state left by the `%IF_...%` block (`attrs`, `cleared`): a
lookup miss leaves the group as it is; a false-like value keeps the
group and strips its style; a true-like value empties it. -/
def processUnless (name_dict : Desc) (label : Str)
    (attrs : List (Str × Str)) (cleared : Bool) : List (Str × Str) × Bool :=
  match matchMarker "%UNLESS_".data label with
  | none => (attrs, cleared)
  | some lookup =>
    match dlookup name_dict lookup with
    | none => (attrs, cleared)
    | some var =>
      if unlessKeep var then (delStyle attrs, cleared)
      else ([], true)

/-- generator.py lines 220-261: the treatment of one labelled group,
returning the group's new attributes and whether its content was
cleared.  A label without a percent sign is skipped.  The `%IF_...%`
marker is tried first: a lookup miss or a true value ends the treatment
of this group (`continue` in the source), a false value clears the
group and falls through to the `%UNLESS_...%` block, which matches
against the label captured before the clear. -/
def processLabeled (name_dict : Desc) (label : Str)
    (attrs : List (Str × Str)) : List (Str × Str) × Bool :=
  if label.contains '%' = false then (attrs, false)
  else
    match matchMarker "%IF_".data label with
    | none => processUnless name_dict label attrs false
    | some lookup =>
      match dlookup name_dict lookup with
      | none => (attrs, false)
      | some var =>
        if is_true var then (delStyle attrs, false)
        else processUnless name_dict label [] true

/-- An XML element of the template: tag, attributes, children.  The
attribute key "label" stands for the namespaced inkscape:label
attribute, "style" for the style attribute; text nodes play no part in
the layer filter and are not modelled. -/
inductive Elem where
  | mk (tag : Str) (attrs : List (Str × Str)) (children : List Elem)

/-- generator.py `filter_layers` (lines 213-261), as observed on the
final tree: every g element carrying a label attribute is treated by
`processLabeled`.  A cleared group loses its children (lxml
`g.clear()`), so the groups below it disappear from the tree and their
own treatment, which the source still performs on the detached nodes,
is invisible in the result. -/
def filter_layers (name_dict : Desc) : Elem → Elem
  | .mk tag attrs children =>
    if tag = "g".data then
      match dlookup attrs "label".data with
      | none => .mk tag attrs (children.attach.map (fun c => filter_layers name_dict c.1))
      | some label =>
        let r := processLabeled name_dict label attrs
        .mk tag r.1
          (if r.2 then []
           else children.attach.map (fun c => filter_layers name_dict c.1))
    else .mk tag attrs (children.attach.map (fun c => filter_layers name_dict c.1))
decreasing_by
  all_goals
    simp_wf
    have := List.sizeOf_lt_of_mem c.2
    omega

/-- One observable step of generator.py `export` (lines 284-300): a
successful move of the temporary svg file to its destination, the
reported failure to create the destination, or an invocation of the
external renderer. -/
inductive ExportAction where
  | moved (src dst : Str)
  | writeError (dst : Str)
  | rendered (src fmt dpi dst : Str)
deriving DecidableEq

/-- generator.py `get_output` (lines 173-175): the output pattern
resolved through `expand_vars`. -/
def get_output (output : Str) (name_dict : Desc) : Str :=
  expand_vars output name_dict

/-- generator.py `export` (lines 263-300).  `moveOk` is the boundary to
`shutil.move`: whether placing a file at its destination succeeds (a
failure is the caught OSError).  The `Str` argument threads the
evolving `self.options.format`: the jpg branch overwrites it with png
in the iteration that meets it, and only that iteration's outfile
undergoes the jpg-to-png substring replacement. -/
def export_all (moveOk : Str → Str → Bool) (header : List Str)
    (output dpi : Str) : Str → List (List Str × Str) → List ExportAction
  | _, [] => []
  | fmt, (line, svgfile) :: rest =>
    let d := get_line_desc header line
    let outfile := get_output output d
    let p := if fmt = "jpg".data then ("png".data, replaceAll "jpg".data "png".data outfile)
             else (fmt, outfile)
    let act := if p.1 = "svg".data then
                 (if moveOk svgfile p.2 then ExportAction.moved svgfile p.2
                  else ExportAction.writeError p.2)
               else ExportAction.rendered svgfile p.1 dpi p.2
    act :: export_all moveOk header output dpi p.1 rest

/-- C5: the layer-filter truthiness rule, applied identically to IF and
UNLESS markers, classifies a column value v as true exactly when v is
non-empty and v lowercased is not one of "0", "false", "no"; in
particular is_true "0" = is_true "false" = is_true "No" = is_true "" =
false and every other non-empty string is true.  The last conjunct shows
the UNLESS keep-condition of line 253 is the exact complement of the IF
condition of line 234. -/
theorem C5_thm :
    is_true "0".data = false ∧ is_true "false".data = false ∧
    is_true "No".data = false ∧ is_true "".data = false ∧
    (∀ v : Str, v ≠ [] →
      (["0".data, "false".data, "no".data].contains (pyLower v)) = false →
      is_true v = true) ∧
    (∀ v : Str, unlessKeep v = !(is_true v)) := by
  refine ⟨by decide, by decide, by decide, by decide, ?_, ?_⟩
  · intro v hv hc
    have he : v.isEmpty = false := by
      cases v with
      | nil => exact absurd rfl hv
      | cons c cs => rfl
    unfold is_true
    rw [he, hc]
    rfl
  · intro v
    unfold is_true unlessKeep
    cases v.isEmpty <;>
      cases (["0".data, "false".data, "no".data].contains (pyLower v)) <;> rfl

/-- Witness for C5: a concrete non-empty, non-false-like value is
classified true by applying the universal conjunct of C5_thm. -/
theorem C5_witness : is_true "x".data = true :=
  C5_thm.2.2.2.2.1 "x".data (by decide) (by decide)

/-- C8: when header (name) mode is requested and the data source
contains zero rows, the run fails with the fatal empty-data-source
error before any descriptor (hence any document) is produced. -/
theorem C8_thm :
    handle_csv "name".data [] = .error .emptyDataSource ∧
    prepare_descs "name".data [] = .error .emptyDataSource := by
  constructor <;> rfl

/-- C10: in index mode (var_type "number", anything other than "name"),
a data source with zero rows makes the synthetic-header construction
index the first element of the empty row list: the run fails with the
uncaught IndexError, not with the reported empty-data-source error that
name mode produces. -/
theorem C10_thm :
    handle_csv "number".data [] = .ok (none, []) ∧
    prepare_descs "number".data [] = .error .indexOutOfBounds ∧
    GenError.indexOutOfBounds ≠ GenError.emptyDataSource := by
  refine ⟨rfl, rfl, by decide⟩

/-- The empty pattern occurs in every string (Python find returns 0). -/
theorem occursIn_nil_left (s : Str) : occursIn [] s = true := by
  cases s with
  | nil => rfl
  | cons c rest => simp [occursIn, List.isPrefixOf]

/-- A pattern that does not occur in a string leaves it unchanged under
replacement (scanning core form). -/
theorem replaceAllAux_not_occurs (pat rep : Str) :
    ∀ s : Str, occursIn pat s = false → replaceAllAux pat rep 0 s = s := by
  intro s
  induction s with
  | nil => intro _; rfl
  | cons c rest ih =>
    intro h
    have h' : (pat.isPrefixOf (c :: rest) || occursIn pat rest) = false := h
    rw [Bool.or_eq_false_iff] at h'
    rw [replaceAllAux]
    rw [h'.1]
    simp only [Bool.false_eq_true, if_false]
    rw [ih h'.2]

/-- A pattern that does not occur in a string leaves it unchanged under
Python replace. -/
theorem replaceAll_not_occurs (pat rep s : Str)
    (h : occursIn pat s = false) : replaceAll pat rep s = s := by
  have hne : pat.isEmpty = false := by
    cases pat with
    | nil => rw [occursIn_nil_left] at h; cases h
    | cons p pr => rfl
  rw [replaceAll, hne]
  simp only [Bool.false_eq_true, if_false]
  exact replaceAllAux_not_occurs pat rep s h

/-- A list is a prefix of itself in the boolean sense. -/
theorem isPrefixOf_self (l : Str) : l.isPrefixOf l = true := by
  induction l with
  | nil => rfl
  | cons c rest ih => simp [List.isPrefixOf, ih]

/-- The scanning core in skip mode consumes the rest of a string that
is no longer than the skip count. -/
theorem replaceAllAux_skip_all (pat rep : Str) :
    ∀ (s : Str) (k : Nat), s.length ≤ k → replaceAllAux pat rep k s = [] := by
  intro s
  induction s with
  | nil => intro k _; cases k <;> rfl
  | cons c rest ih =>
    intro k hk
    cases k with
    | zero => simp at hk
    | succ k' =>
      rw [replaceAllAux]
      exact ih k' (Nat.le_of_succ_le_succ hk)

/-- Replacing a non-empty pattern inside exactly itself yields exactly
the replacement. -/
theorem replaceAll_self (pat rep : Str) (h : pat ≠ []) :
    replaceAll pat rep pat = rep := by
  cases pat with
  | nil => exact absurd rfl h
  | cons p pr =>
    rw [replaceAll]
    simp only [List.isEmpty_cons, Bool.false_eq_true, if_false]
    rw [replaceAllAux, isPrefixOf_self]
    simp only [if_true]
    have hlen : (p :: pr).length - 1 = pr.length := by simp
    rw [hlen, replaceAllAux_skip_all (p :: pr) rep pr pr.length (Nat.le_refl _)]
    exact List.append_nil rep

/-- Boolean membership from membership. -/
theorem contains_of_mem {l : Str} {a : Char} (h : a ∈ l) : l.contains a = true := by
  simp [List.contains, List.elem_iff, h]

/-- Replacing a single character by a block that does not hold it wipes
it from the string. -/
theorem not_mem_replaceAllAux_single_self (c : Char) (rep : Str) (h : c ∉ rep) :
    ∀ s : Str, c ∉ replaceAllAux [c] rep 0 s := by
  intro s
  induction s with
  | nil => simp [replaceAllAux]
  | cons x rest ih =>
    rw [replaceAllAux]
    by_cases hx : c = x
    · subst hx
      simp only [List.isPrefixOf, isPrefixOf_self, beq_self_eq_true, Bool.and_self, if_true]
      intro hmem
      rcases List.mem_append.mp hmem with h1 | h2
      · exact h h1
      · exact ih h2
    · have hbeq : ([c].isPrefixOf (x :: rest)) = false := by
        simp [List.isPrefixOf, beq_eq_false_iff_ne, hx]
      rw [hbeq]
      simp only [Bool.false_eq_true, if_false]
      intro hmem
      rcases List.mem_cons.mp hmem with h1 | h2
      · exact hx h1
      · exact ih h2

/-- Single-character replacement does not create a character that is
absent from both the string and the replacement block. -/
theorem not_mem_replaceAllAux_single_other (c d : Char) (rep : Str) (hrep : d ∉ rep) :
    ∀ s : Str, d ∉ s → d ∉ replaceAllAux [c] rep 0 s := by
  intro s
  induction s with
  | nil => intro _; simp [replaceAllAux]
  | cons x rest ih =>
    intro hs
    have hdx : d ≠ x := fun h => hs (h ▸ List.mem_cons_self x rest)
    have hdrest : d ∉ rest := fun h => hs (List.mem_cons_of_mem x h)
    rw [replaceAllAux]
    by_cases hx : [c].isPrefixOf (x :: rest)
    · rw [hx]
      simp only [if_true]
      intro hmem
      rcases List.mem_append.mp hmem with h1 | h2
      · exact hrep h1
      · exact ih hdrest h2
    · rw [Bool.eq_false_iff.mpr hx]
      simp only [Bool.false_eq_true, if_false]
      intro hmem
      rcases List.mem_cons.mp hmem with h1 | h2
      · exact hdx h1
      · exact ih hdrest h2

/-- The escape pipeline spelt out on the scanning cores. -/
theorem escape_eq (s : Str) :
    escape s =
      replaceAllAux "<".data "&lt;".data 0
        (replaceAllAux ">".data "&gt;".data 0
          (replaceAllAux "&".data "&amp;".data 0 s)) := rfl

/-- No literal angle bracket survives escaping. -/
theorem not_mem_escape_lt (s : Str) : '<' ∉ escape s := by
  rw [escape_eq]
  exact not_mem_replaceAllAux_single_self '<' "&lt;".data (by decide) _

/-- No literal closing angle bracket survives escaping. -/
theorem not_mem_escape_gt (s : Str) : '>' ∉ escape s := by
  rw [escape_eq]
  have h1 : '>' ∉ replaceAllAux ">".data "&gt;".data 0
      (replaceAllAux "&".data "&amp;".data 0 s) :=
    not_mem_replaceAllAux_single_self '>' "&gt;".data (by decide) _
  exact not_mem_replaceAllAux_single_other '<' '>' "&lt;".data (by decide) _ h1

/-- C2 fails on the code: the escaping of xml.sax.saxutils covers `&`,
`<` and `>` but not quote characters, so a substituted value holding a
double quote puts a raw quote into the output. -/
theorem C2_counterexample :
    expand_vars "%VAR_a%".data [("a".data, "\"".data)] = "\"".data ∧
    '"' ∈ ("\"".data : Str) := by
  constructor
  · decide
  · decide

/-- C2 amended: both substitution stages insert values through `escape`,
which covers `&`, `<` and `>` only: the escaped value holds no literal
angle bracket, while a double quote passes through unescaped; Stage B
substitutes exactly the escaped value for a token. -/
theorem C2_amended_thm :
    (∀ v : Str, '<' ∉ escape v ∧ '>' ∉ escape v) ∧
    escape "\"".data = "\"".data ∧
    (∀ k v : Str, expand_vars (varPat k) [(k, v)] = escape v) := by
  refine ⟨fun v => ⟨not_mem_escape_lt v, not_mem_escape_gt v⟩, by decide, ?_⟩
  intro k v
  have hmem : '%' ∈ varPat k := by
    rw [varPat]
    exact List.mem_append.mpr (Or.inl (List.mem_append.mpr (Or.inl (by decide))))
  have hc : (varPat k).contains '%' = true := contains_of_mem hmem
  rw [expand_vars, hc]
  simp only [Bool.true_eq_false, if_false, List.foldl_cons, List.foldl_nil]
  exact replaceAll_self (varPat k) (escape v) (fun h => by
    rw [h] at hmem
    cases hmem)

/-- C3: Stage A processes the rules of the option string in order over
the evolving text (first conjunct); for a well-formed rule, the column
is looked up exactly when the literal occurs in the current text: no
occurrence means no lookup and no error even for an unknown column
(second conjunct), an occurrence with a lookup miss is the fatal
unknown-column error, worded as a wrong column name in name mode and as
a wrong column number otherwise (third conjunct), and an occurrence
with a hit replaces every occurrence of the literal by the XML-escaped
column value (fourth conjunct). -/
theorem C3_thm :
    (∀ (vt ev line : Str) (d : Desc) (t : Str) (ts : List Str),
      splitOnSep "|".data ev = t :: ts → ev ≠ [] →
      expand_extra_vars vt ev line d =
        (stepRule vt d line t) >>= fun l2 => ts.foldlM (stepRule vt d) l2) ∧
    (∀ (vt line : Str) (d : Desc) (t lit col : Str),
      splitOnSep "=>".data t = [lit, col] →
      occursIn lit line = false →
      stepRule vt d line t = .ok line) ∧
    (∀ (vt line : Str) (d : Desc) (t lit col : Str),
      splitOnSep "=>".data t = [lit, col] →
      occursIn lit line = true →
      dlookup d col = none →
      stepRule vt d line t =
        .error (if vt = "name".data then .wrongColumnName col
                else .wrongColumnNumber col)) ∧
    (∀ (vt line : Str) (d : Desc) (t lit col v : Str),
      splitOnSep "=>".data t = [lit, col] →
      occursIn lit line = true →
      dlookup d col = some v →
      stepRule vt d line t = .ok (replaceAll lit (escape v) line)) := by
  refine ⟨?_, ?_, ?_, ?_⟩
  · intro vt ev line d t ts hsplit hne
    rw [expand_extra_vars, if_neg hne, hsplit, List.foldlM_cons]
  · intro vt line d t lit col hsplit hocc
    simp only [stepRule, hsplit]
    rw [hocc]
    simp
  · intro vt line d t lit col hsplit hocc hmiss
    simp only [stepRule, hsplit]
    rw [hocc, hmiss]
    simp only [Bool.true_eq_false, if_false]
    by_cases hvt : vt = "name".data
    · rw [if_pos hvt, if_pos hvt]
    · rw [if_neg hvt, if_neg hvt]
  · intro vt line d t lit col v hsplit hocc hhit
    simp only [stepRule, hsplit]
    rw [hocc, hhit]
    simp

/-- Witness for C3: the spec's end-to-end rule "FOO=>name" with
name=Alice replaces FOO, and a rule naming a missing column is the
fatal name-mode error, while a non-occurring literal reports nothing. -/
theorem C3_witness :
    stepRule "name".data [("name".data, "Alice".data)] "Hi FOO".data "FOO=>name".data
      = .ok "Hi Alice".data ∧
    stepRule "name".data [("name".data, "Alice".data)] "Hi FOO".data "FOO=>zzz".data
      = .error (.wrongColumnName "zzz".data) ∧
    stepRule "name".data [] "Hi".data "FOO=>zzz".data = .ok "Hi".data := by
  refine ⟨?_, ?_, ?_⟩
  · exact (C3_thm.2.2.2 "name".data "Hi FOO".data [("name".data, "Alice".data)]
      "FOO=>name".data "FOO".data "name".data "Alice".data
      (by decide) (by decide) (by decide)).trans (by rfl)
  · exact (C3_thm.2.2.1 "name".data "Hi FOO".data [("name".data, "Alice".data)]
      "FOO=>zzz".data "FOO".data "zzz".data
      (by decide) (by decide) (by decide)).trans (by rfl)
  · exact C3_thm.2.1 "name".data "Hi".data [] "FOO=>zzz".data "FOO".data "zzz".data
      (by decide) (by decide)

/-- C4 fails on the code: a token for a key absent from the descriptor
can be destroyed by the replacement of an overlapping token of a
present key.  In `%VAR_a%VAR_b%` the tokens `%VAR_a%` and `%VAR_b%`
share a percent sign; with a descriptor holding only b, the occurrence
of `%VAR_a%` is not left untouched: it is gone from the output. -/
theorem C4_counterexample :
    expand_vars "%VAR_a%VAR_b%".data [("b".data, "X".data)] = "%VAR_aX".data ∧
    occursIn "%VAR_a%".data "%VAR_a%VAR_b%".data = true ∧
    occursIn "%VAR_a%".data "%VAR_aX".data = false ∧
    dlookup [("b".data, "X".data)] "a".data = none := by
  refine ⟨by decide, by decide, by decide, by decide⟩

/-- C4 amended: Stage B returns the text unchanged whenever it holds no
percent sign; otherwise it replaces, entry after entry of the
descriptor on the evolving text, every occurrence of the entry's token
by the escaped value; and a text in which no descriptor key's token
occurs at all is left unchanged, so unmatched tokens are untouched
except when an occurrence of a present key's token overlaps them. -/
theorem C4_amended_thm :
    (∀ (line : Str) (d : Desc), line.contains '%' = false →
      expand_vars line d = line) ∧
    (∀ (line : Str) (d : Desc), line.contains '%' = true →
      expand_vars line d =
        d.foldl (fun l kv => replaceAll (varPat kv.1) (escape kv.2) l) line) ∧
    (∀ (line : Str) (d : Desc),
      (∀ kv ∈ d, occursIn (varPat kv.1) line = false) →
      expand_vars line d = line) := by
  refine ⟨?_, ?_, ?_⟩
  · intro line d h
    rw [expand_vars, h]
    simp
  · intro line d h
    rw [expand_vars, h]
    simp
  · intro line d h
    rw [expand_vars]
    by_cases hc : line.contains '%' = false
    · rw [hc]
      simp
    · rw [Bool.not_eq_false] at hc
      rw [hc]
      simp only [Bool.true_eq_false, if_false]
      induction d with
      | nil => rfl
      | cons kv rest ih =>
        rw [List.foldl_cons,
            replaceAll_not_occurs (varPat kv.1) (escape kv.2) line
              (h kv (List.mem_cons_self kv rest))]
        exact ih (fun kv2 hkv2 => h kv2 (List.mem_cons_of_mem kv hkv2))

/-- Witness for C4: a percent-free line is returned unchanged, and a
line whose tokens match no descriptor key is returned unchanged. -/
theorem C4_witness :
    expand_vars "abc".data [("a".data, "v".data)] = "abc".data ∧
    expand_vars "%VAR_z%".data [("a".data, "v".data)] = "%VAR_z%".data := by
  constructor
  · exact C4_amended_thm.1 "abc".data [("a".data, "v".data)] (by decide)
  · exact C4_amended_thm.2.2 "%VAR_z%".data [("a".data, "v".data)]
      (by decide)

/-- A successful front match starts with the marker prefix. -/
theorem isPrefixOf_of_matchTail {pre s r : Str} (h : matchTail pre s = some r) :
    pre.isPrefixOf s = true := by
  by_cases hp : pre.isPrefixOf s
  · exact hp
  · rw [matchTail, if_neg hp] at h
    cases h

/-- A successful front match puts every character of the marker prefix
into the string. -/
theorem mem_of_matchTail {pre s r : Str} (h : matchTail pre s = some r)
    (hc : '%' ∈ pre) : '%' ∈ s := by
  have hp : pre <+: s := List.isPrefixOf_iff_prefix.mp (isPrefixOf_of_matchTail h)
  exact hp.subset hc

/-- A label matching a marker holds a percent sign. -/
theorem mem_percent_of_matchMarker {pre : Str} (hc : '%' ∈ pre) :
    ∀ s r : Str, matchMarker pre s = some r → '%' ∈ s := by
  intro s
  induction s with
  | nil =>
    intro r h
    rw [matchMarker] at h
    exact absurd (mem_of_matchTail h hc) (List.not_mem_nil '%')
  | cons c rest ih =>
    intro r h
    rw [matchMarker] at h
    by_cases hn : c = '\n'
    · rw [if_pos hn] at h
      exact mem_of_matchTail h hc
    · rw [if_neg hn] at h
      cases hm : matchMarker pre rest with
      | some r2 =>
        exact List.mem_cons_of_mem c (ih r2 hm)
      | none =>
        rw [hm] at h
        simp only [Option.orElse] at h
        exact mem_of_matchTail h hc

/-- C1 amended: on a layer group whose label matches both markers with
both columns present, the IF marker is evaluated first and decides
alone: a true-like IF value keeps the group (style stripped) and the
UNLESS marker is never consulted, while a false-like IF value clears
the group, after which the UNLESS evaluation (which does run) cannot
restore the cleared content, so the group ends empty either way. -/
theorem C1_amended_thm :
    ∀ (d : Desc) (label : Str) (attrs : List (Str × Str)) (colI colU vI vU : Str),
      matchMarker "%IF_".data label = some colI →
      matchMarker "%UNLESS_".data label = some colU →
      dlookup d colI = some vI →
      dlookup d colU = some vU →
      processLabeled d label attrs =
        if is_true vI then (delStyle attrs, false) else ([], true) := by
  intro d label attrs colI colU vI vU hIF hUN hlI hlU
  have hcp : label.contains '%' = true :=
    contains_of_mem (mem_percent_of_matchMarker (by decide) label colI hIF)
  rw [processLabeled, hcp]
  simp only [Bool.true_eq_false, if_false, hIF, hlI]
  by_cases ht : is_true vI
  · rw [if_pos ht, if_pos ht]
  · rw [if_neg ht, if_neg ht]
    rw [processUnless]
    simp only [hUN, hlU]
    by_cases hu : unlessKeep vU
    · rw [if_pos hu]
      rfl
    · rw [if_neg hu]

/-- Witness for C1's amended theorem: a label carrying both markers on
the same present, true-like column keeps the group with its style
stripped, by applying the theorem at concrete inputs. -/
theorem C1_witness :
    processLabeled [("a".data, "1".data)] "x%IF_a%%UNLESS_a%".data
      [("style".data, "display:none".data)] = ([], false) :=
  (C1_amended_thm [("a".data, "1".data)] "x%IF_a%%UNLESS_a%".data
    [("style".data, "display:none".data)] "a".data "a".data "1".data "1".data
    (by decide) (by decide) (by decide) (by decide)).trans (by rfl)

/-- `filter_layers` with the subtype bookkeeping of its recursion
replaced by a plain map over the children. -/
theorem filter_layers_eq (d : Desc) (tag : Str) (attrs : List (Str × Str))
    (children : List Elem) :
    filter_layers d (.mk tag attrs children) =
      if tag = "g".data then
        match dlookup attrs "label".data with
        | none => .mk tag attrs (children.map (filter_layers d))
        | some label =>
          let r := processLabeled d label attrs
          .mk tag r.1 (if r.2 then [] else children.map (filter_layers d))
      else .mk tag attrs (children.map (filter_layers d)) := by
  rw [filter_layers]
  simp only [List.attach_map_coe]

/-- C1 fails on the code: a layer group whose label holds both an
IF marker and an UNLESS marker, with both columns present and the IF
column true-like, is kept with its content and its style stripped: the
`continue` after the IF branch skips the UNLESS evaluation entirely, so
the UNLESS outcome (the UNLESS column is true-like too, which would
empty the group) is not the one observed in the final tree. -/
theorem C1_counterexample :
    filter_layers [("a".data, "yes".data), ("b".data, "yes".data)]
      (.mk "svg".data []
        [.mk "g".data
          [("label".data, "L %IF_a% %UNLESS_b%".data),
           ("style".data, "display:none".data)]
          [.mk "text".data [] []]]) =
      .mk "svg".data []
        [.mk "g".data [("label".data, "L %IF_a% %UNLESS_b%".data)]
          [.mk "text".data [] []]] ∧
    is_true "yes".data = true ∧
    Elem.mk "g".data [("label".data, "L %IF_a% %UNLESS_b%".data)]
        [.mk "text".data [] []] ≠
      Elem.mk "g".data [] [] := by
  refine ⟨?_, by decide, ?_⟩
  · simp only [filter_layers_eq, List.map_cons, List.map_nil]
    rfl
  · intro h
    rw [Elem.mk.injEq] at h
    exact absurd h.2.1 (by decide)

/-- C7: in the native svg format, a failed move of a row's output file
is reported as the per-row write error and the loop goes on: the
remaining rows are exported exactly as they would have been, and every
row of an svg run yields exactly one action. -/
theorem C7_thm :
    (∀ (moveOk : Str → Str → Bool) (header : List Str) (output dpi : Str)
       (line : List Str) (svgfile : Str) (rest : List (List Str × Str)),
      moveOk svgfile (get_output output (get_line_desc header line)) = false →
      export_all moveOk header output dpi "svg".data ((line, svgfile) :: rest) =
        ExportAction.writeError (get_output output (get_line_desc header line)) ::
          export_all moveOk header output dpi "svg".data rest) ∧
    (∀ (moveOk : Str → Str → Bool) (header : List Str) (output dpi : Str)
       (entries : List (List Str × Str)),
      (export_all moveOk header output dpi "svg".data entries).length =
        entries.length) := by
  constructor
  · intro moveOk header output dpi line svgfile rest h
    simp only [export_all]
    rw [if_neg (show ¬("svg".data = "jpg".data : Prop) by decide)]
    rw [if_pos (show ("svg".data = "svg".data : Prop) by rfl)]
    rw [h]
    simp
  · intro moveOk header output dpi entries
    induction entries with
    | nil => rfl
    | cons e rest ih =>
      obtain ⟨line, svgfile⟩ := e
      simp only [export_all]
      rw [if_neg (show ¬("svg".data = "jpg".data : Prop) by decide)]
      simp only [List.length_cons, ih]

/-- C9: with the configured format jpg, the first iteration of the
export loop overwrites the shared format option with png and applies
the jpg-to-png substring replacement to its own resolved outfile only;
the loop then continues with format png, under which every later row is
rendered as png with its resolved outfile untouched. -/
theorem C9_thm :
    (∀ (moveOk : Str → Str → Bool) (header : List Str) (output dpi : Str)
       (line : List Str) (svgfile : Str) (rest : List (List Str × Str)),
      export_all moveOk header output dpi "jpg".data ((line, svgfile) :: rest) =
        ExportAction.rendered svgfile "png".data dpi
          (replaceAll "jpg".data "png".data
            (get_output output (get_line_desc header line))) ::
          export_all moveOk header output dpi "png".data rest) ∧
    (∀ (moveOk : Str → Str → Bool) (header : List Str) (output dpi : Str)
       (entries : List (List Str × Str)),
      export_all moveOk header output dpi "png".data entries =
        entries.map (fun e => ExportAction.rendered e.2 "png".data dpi
          (get_output output (get_line_desc header e.1)))) := by
  constructor
  · intro moveOk header output dpi line svgfile rest
    simp only [export_all, if_true]
    rw [if_neg (show ¬("png".data = "svg".data : Prop) by decide)]
  · intro moveOk header output dpi entries
    induction entries with
    | nil => rfl
    | cons e rest ih =>
      obtain ⟨line, svgfile⟩ := e
      simp only [export_all]
      rw [if_neg (show ¬("png".data = "jpg".data : Prop) by decide)]
      rw [if_neg (show ¬("png".data = "svg".data : Prop) by decide)]
      rw [List.map_cons, ih]

/-- Witness for C7: with a move that always fails, a two-row svg run
reports a write error for the failing first row and still exports the
second row, by applying the theorem at concrete inputs. -/
theorem C7_witness :
    export_all (fun _ _ => false) ["n".data] "%VAR_n%.svg".data "90".data
      "svg".data [(["A".data], "t1.svg".data), (["B".data], "t2.svg".data)] =
      [ExportAction.writeError "A.svg".data,
       ExportAction.writeError "B.svg".data] := by
  have h1 := C7_thm.1 (fun _ _ => false) ["n".data] "%VAR_n%.svg".data "90".data
    ["A".data] "t1.svg".data [(["B".data], "t2.svg".data)] rfl
  have h2 := C7_thm.1 (fun _ _ => false) ["n".data] "%VAR_n%.svg".data "90".data
    ["B".data] "t2.svg".data [] rfl
  rw [h1, h2]
  rfl

/-- Folding dict insertions over pairs whose keys all differ from the
head binding leaves the head binding in front, untouched. -/
theorem foldl_dinsert_cons_of_ne (h x : Str) :
    ∀ (ps : List (Str × Str)) (m : Desc), (∀ kv ∈ ps, kv.1 ≠ h) →
      List.foldl (fun acc kv => dinsert acc kv.1 kv.2) ((h, x) :: m) ps =
        (h, x) :: List.foldl (fun acc kv => dinsert acc kv.1 kv.2) m ps := by
  intro ps
  induction ps with
  | nil => intro m _; rfl
  | cons kv rest ih =>
    intro m hne
    rw [List.foldl_cons, List.foldl_cons]
    have hkv : kv.1 ≠ h := hne kv (List.mem_cons_self kv rest)
    have hstep : dinsert ((h, x) :: m) kv.1 kv.2 = (h, x) :: dinsert m kv.1 kv.2 := by
      rw [dinsert, if_neg (fun hh => hkv hh.symm)]
    rw [hstep]
    exact ih (dinsert m kv.1 kv.2)
      (fun kv2 h2 => hne kv2 (List.mem_cons_of_mem kv h2))

/-- Building the descriptor of a row whose header starts with a fresh
name h binds h to the first cell and describes the rest behind it. -/
theorem get_line_desc_cons (h x : Str) (hs xs : List Str) (hh : h ∉ hs) :
    get_line_desc (h :: hs) (x :: xs) = (h, x) :: get_line_desc hs xs := by
  rw [get_line_desc, get_line_desc, dictOf, dictOf, List.zip_cons_cons,
      List.foldl_cons]
  have h0 : dinsert [] h x = [(h, x)] := rfl
  rw [h0]
  apply foldl_dinsert_cons_of_ne
  intro kv hkv he
  obtain ⟨a, b⟩ := kv
  exact hh (he ▸ (List.of_mem_zip hkv).1)

/-- Zipping ignores the cells beyond the header length. -/
theorem zip_take_self (l1 : List Str) :
    ∀ l2 : List Str, l1.zip l2 = l1.zip (l2.take l1.length) := by
  induction l1 with
  | nil => intro l2; rfl
  | cons h hs ih =>
    intro l2
    cases l2 with
    | nil => rfl
    | cons x xs =>
      rw [List.length_cons, List.take_succ_cons, List.zip_cons_cons,
          List.zip_cons_cons, ih xs]

/-- Positional hit: with distinct header names, the descriptor maps the
i-th header name to the i-th cell whenever the row reaches it. -/
theorem dlookup_get_line_desc_hit :
    ∀ (header line : List Str) (i : Nat), header.Nodup →
      ∀ (hi : i < header.length) (hj : i < line.length),
      dlookup (get_line_desc header line) (header.get ⟨i, hi⟩) =
        some (line.get ⟨i, hj⟩) := by
  intro header
  induction header with
  | nil => intro line i _ hi _; exact absurd hi (by simp)
  | cons h hs ih =>
    intro line i hnd hi hj
    cases line with
    | nil => exact absurd hj (by simp)
    | cons x xs =>
      have hh : h ∉ hs := (List.nodup_cons.mp hnd).1
      rw [get_line_desc_cons h x hs xs hh]
      cases i with
      | zero =>
        show dlookup ((h, x) :: get_line_desc hs xs) h = some x
        rw [dlookup, if_pos rfl]
      | succ i2 =>
        have hi2 : i2 < hs.length := Nat.lt_of_succ_lt_succ hi
        have hkey : (h :: hs).get ⟨i2 + 1, hi⟩ = hs.get ⟨i2, hi2⟩ := rfl
        rw [hkey]
        have hne : h ≠ hs.get ⟨i2, hi2⟩ :=
          fun he => hh (he ▸ List.get_mem hs i2 hi2)
        rw [dlookup, if_neg hne]
        exact ih xs i2 (List.nodup_cons.mp hnd).2 hi2 (Nat.lt_of_succ_lt_succ hj)

/-- Positional miss: with distinct header names, a header name beyond
the end of a short row is not bound in the descriptor. -/
theorem dlookup_get_line_desc_miss :
    ∀ (header line : List Str) (i : Nat), header.Nodup →
      ∀ (hi : i < header.length), line.length ≤ i →
      dlookup (get_line_desc header line) (header.get ⟨i, hi⟩) = none := by
  intro header
  induction header with
  | nil => intro line i _ hi _; exact absurd hi (by simp)
  | cons h hs ih =>
    intro line i hnd hi hlen
    cases line with
    | nil => rfl
    | cons x xs =>
      have hh : h ∉ hs := (List.nodup_cons.mp hnd).1
      rw [get_line_desc_cons h x hs xs hh]
      cases i with
      | zero => exact absurd hlen (by simp)
      | succ i2 =>
        have hi2 : i2 < hs.length := Nat.lt_of_succ_lt_succ hi
        have hkey : (h :: hs).get ⟨i2 + 1, hi⟩ = hs.get ⟨i2, hi2⟩ := rfl
        rw [hkey]
        have hne : h ≠ hs.get ⟨i2, hi2⟩ :=
          fun he => hh (he ▸ List.get_mem hs i2 hi2)
        rw [dlookup, if_neg hne]
        exact ih xs i2 (List.nodup_cons.mp hnd).2 hi2 (Nat.le_of_succ_le_succ hlen)

/-- C6: the descriptor builder zips header names with cells
positionally: cells beyond the header length are dropped (first
conjunct), the i-th header name maps to the i-th cell when present
(second conjunct) and stays unbound when the row is too short (third
conjunct, header names distinct); index mode builds the keys
"0","1",... from the first data row and reuses that synthetic header
for every row (fourth conjunct); the row Bob,42 yields the descriptor
0=Bob, 1=42, on which the token %VAR_1% resolves to 42 (last two
conjuncts). -/
theorem C6_thm :
    (∀ (header line : List Str),
      get_line_desc header line = get_line_desc header (line.take header.length)) ∧
    (∀ (header line : List Str) (i : Nat), header.Nodup →
      ∀ (hi : i < header.length) (hj : i < line.length),
      dlookup (get_line_desc header line) (header.get ⟨i, hi⟩) =
        some (line.get ⟨i, hj⟩)) ∧
    (∀ (header line : List Str) (i : Nat), header.Nodup →
      ∀ (hi : i < header.length), line.length ≤ i →
      dlookup (get_line_desc header line) (header.get ⟨i, hi⟩) = none) ∧
    (∀ (row0 : List Str) (rest : List (List Str)),
      create_svg_number_descs (row0 :: rest) =
        .ok ((row0 :: rest).map (get_line_desc (syntheticHeader row0)))) ∧
    get_line_desc (syntheticHeader ["Bob".data, "42".data])
        ["Bob".data, "42".data] =
      [("0".data, "Bob".data), ("1".data, "42".data)] ∧
    expand_vars "%VAR_1%".data
        (get_line_desc (syntheticHeader ["Bob".data, "42".data])
          ["Bob".data, "42".data]) =
      "42".data := by
  refine ⟨?_, dlookup_get_line_desc_hit, dlookup_get_line_desc_miss,
    fun row0 rest => rfl, by decide, by decide⟩
  intro header line
  rw [get_line_desc, get_line_desc, zip_take_self]

/-- Witness for C6: header a,b with the single-cell row 1 binds a to 1
and leaves b unset, by applying the theorem at concrete inputs. -/
theorem C6_witness :
    dlookup (get_line_desc ["a".data, "b".data] ["1".data]) "a".data =
      some "1".data ∧
    dlookup (get_line_desc ["a".data, "b".data] ["1".data]) "b".data = none := by
  constructor
  · exact C6_thm.2.1 ["a".data, "b".data] ["1".data] 0 (by decide)
      (by decide) (by decide)
  · exact C6_thm.2.2.1 ["a".data, "b".data] ["1".data] 1 (by decide)
      (by decide) (by decide)
